import Mathlib

/-!
Verification of the BookBound reading tracker's progress reconciliation,
session validation, atomic commit, book invariant and cover resolution
logic, shallowly embedded from the TypeScript source
(`AddReadingEntryForm.onSubmit`, `AddBookDialog.onSubmit`,
`EditBookDialog.onSubmit`, `isValidHttpUrl`).
-/

namespace BookBound

/-- Reading status of a book: `"Want to Read" | "Reading" | "Finished"`. -/
inductive BookStatus where
  | wantToRead
  | reading
  | finished
deriving DecidableEq, Repr

/-- JavaScript `o || d` on an optional number: `null`/`undefined`/`0` are
falsy and yield the default. -/
def jsOrInt : Option Int → Int → Int
  | none, d => d
  | some t, d => if t = 0 then d else t

/-- `Number.MAX_SAFE_INTEGER`. -/
def maxSafeInteger : Int := 9007199254740991

/-- The zod schema `createReadingEntrySchema(totalPages)`: both pages are
integers, at least 1, at most `totalPages || Number.MAX_SAFE_INTEGER`, and
the refinement `endPage >= startPage`. -/
def entryValid (totalPages : Option Int) (startPage endPage : Int) : Bool :=
  decide (1 ≤ startPage) && decide (startPage ≤ jsOrInt totalPages maxSafeInteger) &&
  decide (1 ≤ endPage) && decide (endPage ≤ jsOrInt totalPages maxSafeInteger) &&
  decide (startPage ≤ endPage)

/-- The reading-entry document staged by `batch.set` (`readingEntries` path). -/
structure EntryRecord where
  startPage : Int
  endPage : Int
  pagesReadThisSession : Int
  newTotalPagesRead : Int
  takeaway : String
deriving DecidableEq, Repr

/-- The book-fields update staged by `batch.update`: `status` is only
present on the update when the code assigns it. -/
structure BookUpdate where
  pagesRead : Int
  status : Option BookStatus
deriving DecidableEq, Repr

/-- Outcome of `AddReadingEntryForm.onSubmit` after form validation:
either an early `return` with a toast (two reject sites) or a staged
batch of the entry insert plus the book update. -/
inductive SubmitOutcome where
  | rejectedZeroLength
  | rejectedWouldExceed (maxMorePages : Int)
  | committed (entry : EntryRecord) (update : BookUpdate)
deriving DecidableEq, Repr

/-- `finalPagesReadForBook = totalPages ? Math.min(newTotal, totalPages) : newTotal`
(JS truthiness: `totalPages` equal to 0 is falsy). -/
def finalPagesReadForBook (newTotalPagesRead : Int) (totalPages : Option Int) : Int :=
  match totalPages with
  | some tp => if tp = 0 then newTotalPagesRead else min newTotalPagesRead tp
  | none => newTotalPagesRead

/-- The `bookUpdateData.status` assignment:
`if (totalPages && final >= totalPages) status = 'Finished'
 else if (final > 0) status = 'Reading'` — otherwise the field is absent. -/
def statusUpdate (finalPagesRead : Int) (totalPages : Option Int) : Option BookStatus :=
  match totalPages with
  | some tp =>
      if tp ≠ 0 ∧ tp ≤ finalPagesRead then some BookStatus.finished
      else if 0 < finalPagesRead then some BookStatus.reading
      else none
  | none =>
      if 0 < finalPagesRead then some BookStatus.reading
      else none

/-- `AddReadingEntryForm.onSubmit` after the zod-validated form data is
delivered: the zero-length guard, the would-exceed guard (whose toast
reports `totalPages - currentPagesRead`), then the clamped final total
and the staged batch. -/
def onSubmitEntry (currentPagesRead : Int) (totalPages : Option Int)
    (startPage endPage : Int) (takeaway : String) : SubmitOutcome :=
  let pagesReadThisSession := endPage - startPage + 1
  if pagesReadThisSession ≤ 0 then
    SubmitOutcome.rejectedZeroLength
  else
    let newTotalPagesReadForBook := currentPagesRead + pagesReadThisSession
    let wouldExceed : Bool :=
      match totalPages with
      | some tp =>
          tp != 0 && decide (tp < newTotalPagesReadForBook) && decide (currentPagesRead < tp)
      | none => false
    if wouldExceed then
      SubmitOutcome.rejectedWouldExceed (totalPages.getD 0 - currentPagesRead)
    else
      let finalPages := finalPagesReadForBook newTotalPagesReadForBook totalPages
      SubmitOutcome.committed
        { startPage := startPage, endPage := endPage,
          pagesReadThisSession := pagesReadThisSession,
          newTotalPagesRead := finalPages, takeaway := takeaway }
        { pagesRead := finalPages, status := statusUpdate finalPages totalPages }

/-- Well-formedness of a Book's `totalPages` as the book form schema
enforces it on every persisted book: `z.coerce.number().int().positive()`
when present. -/
def totalPagesWF : Option Int → Bool
  | none => true
  | some tp => decide (1 ≤ tp)

/-- The clamping formula exactly as the spec words it:
`finalPagesRead = totalPages ? min(rawNewTotal, totalPages) : rawNewTotal`
with `totalPages` read as "defined". -/
def specFinalPagesRead (rawNewTotal : Int) (totalPages : Option Int) : Int :=
  match totalPages with
  | some tp => min rawNewTotal tp
  | none => rawNewTotal

/-- The status derivation exactly as the spec words it, as a total
function of `finalPagesRead`, `totalPages` and the current status. -/
def specDerivedStatus (finalPagesRead : Int) (totalPages : Option Int)
    (current : BookStatus) : BookStatus :=
  match totalPages with
  | some tp =>
      if tp ≤ finalPagesRead then BookStatus.finished
      else if 0 < finalPagesRead then BookStatus.reading
      else current
  | none =>
      if 0 < finalPagesRead then BookStatus.reading
      else current

/-- C1: for every book snapshot with `pagesRead ≥ 0` (and a well-formed
`totalPages`) and every validated session of
`sessionPages = endPage - startPage + 1` pages, the reconcile step
computes `finalPagesRead = min(pagesRead + sessionPages, totalPages)`
when `totalPages` is defined and `pagesRead + sessionPages` otherwise,
hence `0 ≤ finalPagesRead ≤ totalPages` whenever `totalPages` is defined. -/
theorem C1_reconcile_clamps (currentPagesRead startPage endPage : Int)
    (totalPages : Option Int)
    (hpr : 0 ≤ currentPagesRead) (hwf : totalPagesWF totalPages = true)
    (hv : entryValid totalPages startPage endPage = true) :
    finalPagesReadForBook (currentPagesRead + (endPage - startPage + 1)) totalPages =
      specFinalPagesRead (currentPagesRead + (endPage - startPage + 1)) totalPages ∧
    ∀ tp, totalPages = some tp →
      0 ≤ finalPagesReadForBook (currentPagesRead + (endPage - startPage + 1)) totalPages ∧
      finalPagesReadForBook (currentPagesRead + (endPage - startPage + 1)) totalPages ≤ tp := by
  simp only [entryValid, Bool.and_eq_true, decide_eq_true_eq] at hv
  obtain ⟨⟨⟨⟨h1, _⟩, h2⟩, _⟩, h3⟩ := hv
  cases totalPages with
  | none => exact ⟨rfl, by intro tp h; cases h⟩
  | some tp =>
      simp only [totalPagesWF, decide_eq_true_eq] at hwf
      have htp : tp ≠ 0 := by omega
      refine ⟨?_, ?_⟩
      · simp [finalPagesReadForBook, specFinalPagesRead, htp]
      · intro tp2 h
        injection h with h
        subst h
        simp only [finalPagesReadForBook, htp, if_false]
        constructor
        · rcases le_or_lt (currentPagesRead + (endPage - startPage + 1)) tp with hle | hlt
          · rw [min_eq_left hle]; omega
          · rw [min_eq_right (le_of_lt hlt)]; omega
        · exact min_le_right _ _

/-- Witness for C1 at `pagesRead = 0`, `totalPages = 200`, session `1..50`. -/
theorem C1_reconcile_clamps_witness :
    (0 : Int) ≤ 0 ∧ totalPagesWF (some 200) = true ∧
    entryValid (some 200) 1 50 = true ∧
    (finalPagesReadForBook (0 + (50 - 1 + 1)) (some 200) =
      specFinalPagesRead (0 + (50 - 1 + 1)) (some 200) ∧
    ∀ tp, (some 200 : Option Int) = some tp →
      0 ≤ finalPagesReadForBook (0 + (50 - 1 + 1)) (some 200) ∧
      finalPagesReadForBook (0 + (50 - 1 + 1)) (some 200) ≤ tp) :=
  ⟨le_refl 0, by decide, by decide,
    C1_reconcile_clamps 0 1 50 (some 200) (le_refl 0) (by decide) (by decide)⟩

/-- A persisted book document (`users/{uid}/books/{bookId}`), with the
fields the dialogs read and write; `updatedAt` models the server
timestamp as an abstract tick. -/
structure BookDoc where
  title : String
  author : String
  category : String
  status : BookStatus
  totalPages : Option Int
  coverUrl : String
  isbn : String
  description : String
  pagesRead : Int
  updatedAt : Nat
deriving DecidableEq, Repr

/-- The slice of the document store a session commit touches: the book's
`readingEntries` subcollection and the book document itself. -/
structure Store where
  entries : List EntryRecord
  book : BookDoc
deriving DecidableEq, Repr

/-- Applying the staged batch: `batch.set(entryRef, …)` appends the entry
and `batch.update(bookRef, bookUpdateData)` overwrites `pagesRead` and
`updatedAt`, and `status` only when the field is present on the update. -/
def applyEntryBatch (st : Store) (now : Nat) (entry : EntryRecord)
    (update : BookUpdate) : Store :=
  { entries := st.entries ++ [entry]
    book := { st.book with
      pagesRead := update.pagesRead
      status := update.status.getD st.book.status
      updatedAt := now } }

/-- `batch.commit()` under the document-store contract (spec §6): the
staged writes are applied atomically — on success all of them, on a
`CommitError` none of them. -/
def commitEntryBatch (st : Store) (success : Bool) (now : Nat)
    (entry : EntryRecord) (update : BookUpdate) : Store :=
  if success then applyEntryBatch st now entry update else st

/-- The whole submit pipeline against a store: a rejected submission
returns before any store call; a committed one stages both writes in one
batch and issues a single `batch.commit()`. -/
def runSubmitEntry (st : Store) (success : Bool) (now : Nat)
    (startPage endPage : Int) (takeaway : String) : Store :=
  match onSubmitEntry st.book.pagesRead st.book.totalPages startPage endPage takeaway with
  | SubmitOutcome.committed entry update => commitEntryBatch st success now entry update
  | _ => st

/-- C2: for every session submission that reaches the commit, the entry
insert and the book-fields update (`pagesRead`, `status`, `updatedAt`)
form a single atomic unit: on success both writes are visible to
subsequent reads, and on a commit failure neither is — the store is left
exactly as it was. -/
theorem C2_commit_atomic (st : Store) (now : Nat) (startPage endPage : Int)
    (takeaway : String) (entry : EntryRecord) (update : BookUpdate)
    (h : onSubmitEntry st.book.pagesRead st.book.totalPages startPage endPage takeaway =
      SubmitOutcome.committed entry update) :
    ((runSubmitEntry st true now startPage endPage takeaway).entries =
        st.entries ++ [entry] ∧
      (runSubmitEntry st true now startPage endPage takeaway).book.pagesRead =
        update.pagesRead ∧
      (runSubmitEntry st true now startPage endPage takeaway).book.status =
        update.status.getD st.book.status ∧
      (runSubmitEntry st true now startPage endPage takeaway).book.updatedAt = now) ∧
    runSubmitEntry st false now startPage endPage takeaway = st := by
  unfold runSubmitEntry
  rw [h]
  exact ⟨⟨rfl, rfl, rfl, rfl⟩, rfl⟩

/-- Witness for C2 on a concrete store and the session `1..10`. -/
theorem C2_commit_atomic_witness :
    let st : Store :=
      { entries := []
        book := { title := "Dune", author := "FH", category := "Sci-Fi"
                  status := BookStatus.reading, totalPages := some 100
                  coverUrl := "https://example.com/c.png", isbn := "", description := ""
                  pagesRead := 0, updatedAt := 0 } }
    let entry : EntryRecord :=
      { startPage := 1, endPage := 10, pagesReadThisSession := 10
        newTotalPagesRead := 10, takeaway := "" }
    let update : BookUpdate := { pagesRead := 10, status := some BookStatus.reading }
    onSubmitEntry st.book.pagesRead st.book.totalPages 1 10 "" =
      SubmitOutcome.committed entry update ∧
    (((runSubmitEntry st true 7 1 10 "").entries = st.entries ++ [entry] ∧
      (runSubmitEntry st true 7 1 10 "").book.pagesRead = update.pagesRead ∧
      (runSubmitEntry st true 7 1 10 "").book.status =
        update.status.getD st.book.status ∧
      (runSubmitEntry st true 7 1 10 "").book.updatedAt = 7) ∧
    runSubmitEntry st false 7 1 10 "" = st) :=
  ⟨by decide, C2_commit_atomic _ 7 1 10 "" _ _ (by decide)⟩

/-- C3: the status assigned by reconcile is a pure function of
`finalPagesRead` and `totalPages`: when `totalPages` is defined (and
positive, as every persisted book's is) and `finalPagesRead ≥ totalPages`
the resulting status is `Finished`; otherwise when `finalPagesRead > 0`
it is `Reading`; otherwise the book's current status is left unchanged. -/
theorem C3_status_derivation (finalPagesRead : Int) (totalPages : Option Int)
    (current : BookStatus) (hwf : totalPagesWF totalPages = true) :
    (statusUpdate finalPagesRead totalPages).getD current =
      specDerivedStatus finalPagesRead totalPages current := by
  cases totalPages with
  | none =>
      by_cases h : 0 < finalPagesRead <;> simp [statusUpdate, specDerivedStatus, h]
  | some tp =>
      simp only [totalPagesWF, decide_eq_true_eq] at hwf
      have htp : tp ≠ 0 := by omega
      by_cases hge : tp ≤ finalPagesRead
      · simp [statusUpdate, specDerivedStatus, htp, hge]
      · by_cases hpos : 0 < finalPagesRead <;>
          simp [statusUpdate, specDerivedStatus, htp, hge, hpos]

/-- Witness for C3 at `finalPagesRead = 5`, `totalPages = 100`. -/
theorem C3_status_derivation_witness :
    totalPagesWF (some 100) = true ∧
    (statusUpdate 5 (some 100)).getD BookStatus.wantToRead =
      specDerivedStatus 5 (some 100) BookStatus.wantToRead :=
  ⟨by decide, C3_status_derivation 5 (some 100) BookStatus.wantToRead (by decide)⟩

/-- When the session has positive length and the would-exceed guard does
not fire, `onSubmitEntry` stages the batch built from the clamped total. -/
theorem onSubmitEntry_committed_eq (cur sp ep : Int) (tpOpt : Option Int) (tw : String)
    (hpos : 0 < ep - sp + 1)
    (hng : ∀ tp, tpOpt = some tp → ¬(tp ≠ 0 ∧ tp < cur + (ep - sp + 1) ∧ cur < tp)) :
    onSubmitEntry cur tpOpt sp ep tw =
      SubmitOutcome.committed
        { startPage := sp, endPage := ep, pagesReadThisSession := ep - sp + 1,
          newTotalPagesRead := finalPagesReadForBook (cur + (ep - sp + 1)) tpOpt,
          takeaway := tw }
        { pagesRead := finalPagesReadForBook (cur + (ep - sp + 1)) tpOpt,
          status := statusUpdate (finalPagesReadForBook (cur + (ep - sp + 1)) tpOpt) tpOpt } := by
  have hs : ¬(ep - sp + 1 ≤ 0) := by omega
  cases tpOpt with
  | none =>
      unfold onSubmitEntry
      simp [hs]
  | some tp =>
      have hg := hng tp rfl
      unfold onSubmitEntry
      have hgb : (tp != 0 && decide (tp < cur + (ep - sp + 1)) && decide (cur < tp)) = false := by
        by_cases h0 : tp = 0
        · simp [h0]
        · by_cases h1 : tp < cur + (ep - sp + 1)
          · have h2 : ¬ cur < tp := fun h2 => hg ⟨h0, h1, h2⟩
            simp [h2]
          · simp [h1]
      simp [hs, hgb]

/-- When the session has positive length and the would-exceed guard
fires, `onSubmitEntry` rejects and the toast reports `tp - cur`. -/
theorem onSubmitEntry_wouldExceed_eq (cur sp ep tp : Int) (tw : String)
    (hpos : 0 < ep - sp + 1) (htp : tp ≠ 0)
    (hex : tp < cur + (ep - sp + 1)) (hlt : cur < tp) :
    onSubmitEntry cur (some tp) sp ep tw =
      SubmitOutcome.rejectedWouldExceed (tp - cur) := by
  have hs : ¬(ep - sp + 1 ≤ 0) := by omega
  unfold onSubmitEntry
  have hgb : (tp != 0 && decide (tp < cur + (ep - sp + 1)) && decide (cur < tp)) = true := by
    simp [htp, hex, hlt]
  simp [hs, hgb]

/-- C5 counterexample: the book snapshot has status `Finished` but
`pagesRead = 0 < totalPages = 100` (reachable: book-add persists
`pagesRead: 0` under any selected status, `Finished` included); the
validated session `1..10` then drives the status back to `Reading`. -/
theorem C5_counterexample :
    let st : Store :=
      { entries := []
        book := { title := "Dune", author := "FH", category := "Sci-Fi"
                  status := BookStatus.finished, totalPages := some 100
                  coverUrl := "https://example.com/c.png", isbn := "", description := ""
                  pagesRead := 0, updatedAt := 0 } }
    st.book.status = BookStatus.finished ∧
    totalPagesWF st.book.totalPages = true ∧
    entryValid st.book.totalPages 1 10 = true ∧
    (runSubmitEntry st true 1 1 10 "").book.status = BookStatus.reading := by
  decide

/-- C5 amended: for every book snapshot whose `totalPages` is defined and
whose `pagesRead` has reached `totalPages` — the only state in which a
session-driven reconcile ever sets `Finished` — every further validated
session is committed with status `Finished`, never `Reading` or
`WantToRead`; a `Finished` snapshot with `pagesRead < totalPages` (or with
no `totalPages`) can instead be demoted to `Reading`, as the reconcile
reads only `pagesRead` and `totalPages`, never the current status. -/
theorem C5_amended_finished_stays (currentPagesRead tp startPage endPage : Int)
    (takeaway : String) (htp : 1 ≤ tp) (hfin : tp ≤ currentPagesRead)
    (hv : entryValid (some tp) startPage endPage = true) :
    ∃ entry update,
      onSubmitEntry currentPagesRead (some tp) startPage endPage takeaway =
        SubmitOutcome.committed entry update ∧
      update.status = some BookStatus.finished := by
  simp only [entryValid, Bool.and_eq_true, decide_eq_true_eq] at hv
  obtain ⟨⟨⟨⟨h1, _⟩, _⟩, _⟩, h3⟩ := hv
  have hpos : 0 < endPage - startPage + 1 := by omega
  have hng : ∀ t, (some tp : Option Int) = some t →
      ¬(t ≠ 0 ∧ t < currentPagesRead + (endPage - startPage + 1) ∧ currentPagesRead < t) := by
    intro t ht
    injection ht with ht
    subst ht
    intro ⟨_, _, hc⟩
    omega
  refine ⟨_, _, onSubmitEntry_committed_eq currentPagesRead startPage endPage
    (some tp) takeaway hpos hng, ?_⟩
  have hfinal : finalPagesReadForBook (currentPagesRead + (endPage - startPage + 1))
      (some tp) = tp := by
    have h0 : tp ≠ 0 := by omega
    simp only [finalPagesReadForBook, h0, if_false]
    rw [min_eq_right (by omega)]
  simp only [hfinal, statusUpdate]
  rw [if_pos ⟨by omega, le_refl tp⟩]

/-- Witness for C5 amended at `pagesRead = totalPages = 100`, session `1..10`. -/
theorem C5_amended_finished_stays_witness :
    (1 : Int) ≤ 100 ∧ (100 : Int) ≤ 100 ∧ entryValid (some 100) 1 10 = true ∧
    ∃ entry update,
      onSubmitEntry 100 (some 100) 1 10 "done" =
        SubmitOutcome.committed entry update ∧
      update.status = some BookStatus.finished :=
  ⟨by decide, le_refl 100, by decide,
    C5_amended_finished_stays 100 100 1 10 "done" (by decide) (le_refl 100) (by decide)⟩

/-- C6: a book already at `pagesRead = totalPages` still accepts any
further validated session (over-logging is allowed: the would-exceed
guard requires `pagesRead < totalPages`), and the reconcile leaves the
stored total at exactly `totalPages` — clamping is idempotent at the
upper bound. -/
theorem C6_idempotent_at_bound (tp startPage endPage : Int) (takeaway : String)
    (htp : 1 ≤ tp) (hv : entryValid (some tp) startPage endPage = true) :
    ∃ entry update,
      onSubmitEntry tp (some tp) startPage endPage takeaway =
        SubmitOutcome.committed entry update ∧
      update.pagesRead = tp ∧ entry.newTotalPagesRead = tp := by
  simp only [entryValid, Bool.and_eq_true, decide_eq_true_eq] at hv
  obtain ⟨⟨⟨⟨h1, _⟩, _⟩, _⟩, h3⟩ := hv
  have hpos : 0 < endPage - startPage + 1 := by omega
  have hng : ∀ t, (some tp : Option Int) = some t →
      ¬(t ≠ 0 ∧ t < tp + (endPage - startPage + 1) ∧ tp < t) := by
    intro t ht
    injection ht with ht
    subst ht
    intro ⟨_, _, hc⟩
    omega
  refine ⟨_, _, onSubmitEntry_committed_eq tp startPage endPage
    (some tp) takeaway hpos hng, ?_, ?_⟩ <;>
  · show finalPagesReadForBook (tp + (endPage - startPage + 1)) (some tp) = tp
    have h0 : tp ≠ 0 := by omega
    simp only [finalPagesReadForBook, h0, if_false]
    rw [min_eq_right (by omega)]

/-- Witness for C6 at `totalPages = 100`, session `41..60`. -/
theorem C6_idempotent_at_bound_witness :
    (1 : Int) ≤ 100 ∧ entryValid (some 100) 41 60 = true ∧
    ∃ entry update,
      onSubmitEntry 100 (some 100) 41 60 "" =
        SubmitOutcome.committed entry update ∧
      update.pagesRead = 100 ∧ entry.newTotalPagesRead = 100 :=
  ⟨by decide, by decide, C6_idempotent_at_bound 100 41 60 "" (by decide) (by decide)⟩

/-- C7: among submissions whose page range already passes the zod range
rules against a book with `totalPages` set, `onSubmit` rejects — before
any store call, leaving entries and book untouched — exactly when
`pagesRead + sessionPages > totalPages` while `pagesRead < totalPages`,
and the rejection toast reports the maximum additional pages allowed,
`totalPages - pagesRead`. -/
theorem C7_would_exceed_guard (st : Store) (success : Bool) (now : Nat)
    (startPage endPage tp : Int) (takeaway : String)
    (htp : st.book.totalPages = some tp) (hwf : 1 ≤ tp)
    (hv : entryValid (some tp) startPage endPage = true) :
    ((∃ m, onSubmitEntry st.book.pagesRead (some tp) startPage endPage takeaway =
        SubmitOutcome.rejectedWouldExceed m) ↔
      (tp < st.book.pagesRead + (endPage - startPage + 1) ∧ st.book.pagesRead < tp)) ∧
    (∀ m, onSubmitEntry st.book.pagesRead (some tp) startPage endPage takeaway =
        SubmitOutcome.rejectedWouldExceed m →
      m = tp - st.book.pagesRead ∧
      runSubmitEntry st success now startPage endPage takeaway = st) := by
  simp only [entryValid, Bool.and_eq_true, decide_eq_true_eq] at hv
  obtain ⟨⟨⟨⟨h1, _⟩, _⟩, _⟩, h3⟩ := hv
  have hpos : 0 < endPage - startPage + 1 := by omega
  by_cases hcond : tp < st.book.pagesRead + (endPage - startPage + 1) ∧ st.book.pagesRead < tp
  · have heq := onSubmitEntry_wouldExceed_eq st.book.pagesRead startPage endPage tp takeaway
      hpos (by omega) hcond.1 hcond.2
    refine ⟨⟨fun _ => hcond, fun _ => ⟨_, heq⟩⟩, ?_⟩
    intro m hm
    rw [heq] at hm
    injection hm with hm
    refine ⟨hm.symm, ?_⟩
    unfold runSubmitEntry
    rw [htp, heq]
  · have hng : ∀ t, (some tp : Option Int) = some t →
        ¬(t ≠ 0 ∧ t < st.book.pagesRead + (endPage - startPage + 1) ∧ st.book.pagesRead < t) := by
      intro t ht
      injection ht with ht
      subst ht
      intro ⟨_, ha, hb⟩
      exact hcond ⟨ha, hb⟩
    have heq := onSubmitEntry_committed_eq st.book.pagesRead startPage endPage
      (some tp) takeaway hpos hng
    refine ⟨⟨?_, fun h => absurd h hcond⟩, ?_⟩
    · intro ⟨m, hm⟩
      rw [heq] at hm
      exact SubmitOutcome.noConfusion hm
    · intro m hm
      rw [heq] at hm
      exact SubmitOutcome.noConfusion hm

/-- Witness for C7: `pagesRead = 90`, `totalPages = 100`, session `1..20`
is range-valid, projects to 110 > 100 with the book unfinished, so it is
rejected with `m = 10` and the store is untouched. -/
theorem C7_would_exceed_guard_witness :
    let st : Store :=
      { entries := []
        book := { title := "Dune", author := "FH", category := "Sci-Fi"
                  status := BookStatus.reading, totalPages := some 100
                  coverUrl := "https://example.com/c.png", isbn := "", description := ""
                  pagesRead := 90, updatedAt := 0 } }
    st.book.totalPages = some 100 ∧ (1 : Int) ≤ 100 ∧
    entryValid (some 100) 1 20 = true ∧
    (((∃ m, onSubmitEntry st.book.pagesRead (some 100) 1 20 "" =
        SubmitOutcome.rejectedWouldExceed m) ↔
      (100 < st.book.pagesRead + (20 - 1 + 1) ∧ st.book.pagesRead < 100)) ∧
    (∀ m, onSubmitEntry st.book.pagesRead (some 100) 1 20 "" =
        SubmitOutcome.rejectedWouldExceed m →
      m = 100 - st.book.pagesRead ∧
      runSubmitEntry st true 3 1 20 "" = st)) := by
  exact ⟨rfl, by decide, by decide,
    C7_would_exceed_guard _ true 3 1 20 100 "" rfl (by decide) (by decide)⟩

/-- True for the characters a URL scheme may contain after its first
letter (RFC 3986 / WHATWG). -/
def isSchemeChar (c : Char) : Bool :=
  c.isAlphanum || c == '+' || c == '-' || c == '.'

/-- Split a character list at the first colon. -/
def splitAtColon : List Char → Option (List Char × List Char)
  | [] => none
  | c :: rest =>
      if c == ':' then some ([], rest)
      else
        match splitAtColon rest with
        | some (sch, tail) => some (c :: sch, tail)
        | none => none

/-- A non-empty scheme starting with a letter. -/
def schemeValid : List Char → Bool
  | [] => false
  | c :: cs => c.isAlpha && cs.all isSchemeChar

/-- The WHATWG special schemes relevant here (these require `//host`). -/
def specialSchemes : List String := ["http", "https", "ws", "wss", "ftp"]

def hostTerminator (c : Char) : Bool := c == '/' || c == '?' || c == '#'

/-- Model of the platform `new URL(s)` succeeding, as used by zod's
`.url()` and by `isValidHttpUrl`. Approximation of the WHATWG parser: a
valid scheme followed by a colon is required; special schemes further
require `//` and a non-empty host free of spaces; other schemes accept
any remainder. -/
def canParseURL (s : String) : Bool :=
  match splitAtColon s.toList with
  | none => false
  | some (sch, rest) =>
      schemeValid sch &&
      (let scheme := String.mk (sch.map Char.toLower)
       if specialSchemes.contains scheme then
         match rest with
         | '/' :: '/' :: tail =>
             let host := tail.takeWhile (fun c => !(hostTerminator c))
             !host.isEmpty && host.all (fun c => !(c == ' '))
         | _ => false
       else true)

/-- `url.protocol` of a parseable URL: the lowercased scheme plus `":"`. -/
def urlProtocol (s : String) : Option String :=
  if canParseURL s then
    match splitAtColon s.toList with
    | some (sch, _) => some (String.mk (sch.map Char.toLower) ++ ":")
    | none => none
  else none

/-- `isValidHttpUrl` from the repo: `new URL(s)` must succeed and
`url.protocol` must be `"http:"` or `"https:"`; falsy input is false. -/
def isValidHttpUrl (s : String) : Bool :=
  match urlProtocol s with
  | some p => p == "http:" || p == "https:"
  | none => false

/-- Characters `encodeURIComponent` leaves unescaped. -/
def isURIUnreservedChar (c : Char) : Bool :=
  c.isAlphanum || c == '-' || c == '_' || c == '.' || c == '!' || c == '~' ||
  c == '*' || c.toNat == 39 || c == '(' || c == ')'

def hexDigitUpper (n : Nat) : Char :=
  if n < 10 then Char.ofNat (48 + n) else Char.ofNat (55 + n)

/-- UTF-8 bytes of a code point. -/
def utf8ByteList (n : Nat) : List Nat :=
  if n < 128 then [n]
  else if n < 2048 then [192 + n / 64, 128 + n % 64]
  else if n < 65536 then [224 + n / 4096, 128 + (n / 64) % 64, 128 + n % 64]
  else [240 + n / 262144, 128 + (n / 4096) % 64, 128 + (n / 64) % 64, 128 + n % 64]

def percentEncodeByte (b : Nat) : List Char :=
  ['%', hexDigitUpper (b / 16), hexDigitUpper (b % 16)]

/-- The platform `encodeURIComponent`. -/
def encodeURIComponent (s : String) : String :=
  String.mk ((s.toList.map (fun c =>
    if isURIUnreservedChar c then [c]
    else ((utf8ByteList c.toNat).map percentEncodeByte).flatten)).flatten)

/-- The deterministic placeholder cover built from a seed, as both
dialogs build it for the title seed:
`https://picsum.photos/seed/${encodeURIComponent(seed)}/300/450`. -/
def placeholderCoverUrl (seed : String) : String :=
  "https://picsum.photos/seed/" ++ encodeURIComponent seed ++ "/300/450"

/-- The zod-validated book form data of both dialogs. A present
`coverImage` stands for a selected file, carried as the download URL the
blob store returns for its upload; `coverUrl` is `""` when the field is
empty. -/
structure BookFormData where
  title : String
  author : String
  category : String
  status : BookStatus
  totalPages : Option Int
  coverImage : Option String
  coverUrl : String
  isbn : String
  description : String
deriving DecidableEq, Repr

/-- The zod rule for the form's `coverUrl` field:
`z.string().url().optional().or(z.literal(''))`. -/
def coverUrlSchemaAccepts (u : String) : Bool :=
  u == "" || canParseURL u

/-- The rest of `bookFormSchema`: non-empty title/author/category, a
positive integer `totalPages` when present, and the `coverUrl` rule. -/
def validBookForm (f : BookFormData) : Bool :=
  !(f.title == "") && !(f.author == "") && !(f.category == "") &&
  (match f.totalPages with
   | some tp => decide (1 ≤ tp)
   | none => true) &&
  coverUrlSchemaAccepts f.coverUrl

/-- `AddBookDialog.onSubmit`: `coverImageUrl = data.coverUrl || ''`,
replaced by the upload's download URL when a file is selected, then the
document is written with `coverUrl: coverImageUrl || placeholder(title)`
and `pagesRead: 0`. -/
def addBookDoc (now : Nat) (f : BookFormData) : BookDoc :=
  let coverImageUrl :=
    match f.coverImage with
    | some uploadedUrl => uploadedUrl
    | none => f.coverUrl
  { title := f.title, author := f.author, category := f.category
    status := f.status, totalPages := f.totalPages
    isbn := f.isbn, description := f.description
    coverUrl := if coverImageUrl == "" then placeholderCoverUrl f.title else coverImageUrl
    pagesRead := 0
    updatedAt := now }

/-- The cover chosen by `EditBookDialog.onSubmit`: start from the current
cover when it is a valid http(s) URL, prefer an uploaded file, else a
valid http(s) URL from the field, else clear when the field is empty;
finally fall back to the title placeholder, or the id-seeded placeholder
when the title is empty. -/
def editBookCoverUrl (bookCoverUrl bookId : String) (f : BookFormData) : String :=
  let initial :=
    if !(bookCoverUrl == "") && isValidHttpUrl bookCoverUrl then bookCoverUrl else ""
  let chosen :=
    match f.coverImage with
    | some uploadedUrl => uploadedUrl
    | none =>
        if !(f.coverUrl == "") && isValidHttpUrl f.coverUrl then f.coverUrl
        else if f.coverUrl == "" then ""
        else initial
  if chosen == "" then
    if !(f.title == "") then placeholderCoverUrl f.title
    else "https://picsum.photos/seed/" ++
      (if bookId == "" then "default-book-edit" else bookId) ++ "/300/450"
  else chosen

/-- `EditBookDialog.onSubmit`: `updatedBookData` overwrites the metadata
fields and the resolved cover, carries `status` and `totalPages` straight
from the form, and preserves the book's `pagesRead`. -/
def editBook (book : BookDoc) (bookId : String) (now : Nat) (f : BookFormData) : BookDoc :=
  { title := f.title, author := f.author, category := f.category
    status := f.status, totalPages := f.totalPages
    isbn := f.isbn, description := f.description
    coverUrl := editBookCoverUrl book.coverUrl bookId f
    pagesRead := book.pagesRead
    updatedAt := now }

/-- The Book invariant of spec §3: `0 ≤ pagesRead`, and when `totalPages`
is present `pagesRead ≤ totalPages` with `pagesRead = totalPages`
forcing `Finished`; a positive `pagesRead` on an unfinished book forces
`Reading`. -/
def bookInvariant (b : BookDoc) : Bool :=
  decide (0 ≤ b.pagesRead) &&
  (match b.totalPages with
   | some tp =>
       decide (b.pagesRead ≤ tp) &&
       (!(decide (b.pagesRead = tp)) || (b.status == BookStatus.finished))
   | none => true) &&
  (!(decide (0 < b.pagesRead)) || (b.status == BookStatus.finished) ||
    (b.status == BookStatus.reading))

theorem placeholderCoverUrl_ne_empty (t : String) : placeholderCoverUrl t ≠ "" := by
  intro h
  have h2 := congrArg String.length h
  rw [placeholderCoverUrl, String.length_append, String.length_append] at h2
  have hp : ("https://picsum.photos/seed/" : String).length = 27 := rfl
  have hq : ("/300/450" : String).length = 8 := rfl
  have h0 : ("" : String).length = 0 := rfl
  omega

/-- C4 counterexample: a book at `pagesRead = 5` of `totalPages = 10`
satisfies the invariant; an edit that passes form validation and lowers
`totalPages` to 3 while selecting status `Want to Read` is persisted with
`pagesRead` preserved, leaving `pagesRead > totalPages` — the invariant
is broken by the book-edit mutation path. -/
theorem C4_counterexample :
    let book : BookDoc :=
      { title := "A", author := "B", category := "Fiction"
        status := BookStatus.reading, totalPages := some 10
        coverUrl := "https://example.com/c.png", isbn := "", description := ""
        pagesRead := 5, updatedAt := 0 }
    let f : BookFormData :=
      { title := "A", author := "B", category := "Fiction"
        status := BookStatus.wantToRead, totalPages := some 3
        coverImage := none, coverUrl := "", isbn := "", description := "" }
    bookInvariant book = true ∧ validBookForm f = true ∧
    bookInvariant (editBook book "b1" 1 f) = false := by
  decide

/-- C4 amended: book-add (which always persists `pagesRead = 0`) and the
session-commit path preserve the Book invariant, but book-edit only
preserves `pagesRead` while taking `status` and `totalPages` straight
from the form, so an edit can violate the invariant (for example by
lowering `totalPages` below `pagesRead`). -/
theorem C4_amended_invariant_preservation :
    (∀ now f, validBookForm f = true → bookInvariant (addBookDoc now f) = true) ∧
    (∀ st success now startPage endPage takeaway,
      bookInvariant st.book = true →
      totalPagesWF st.book.totalPages = true →
      entryValid st.book.totalPages startPage endPage = true →
      bookInvariant (runSubmitEntry st success now startPage endPage takeaway).book = true) := by
  constructor
  · intro now f hf
    simp only [validBookForm, Bool.and_eq_true] at hf
    obtain ⟨⟨⟨⟨_, _⟩, _⟩, htp⟩, _⟩ := hf
    cases h : f.totalPages with
    | none => simp [bookInvariant, addBookDoc, h]
    | some tp =>
        rw [h] at htp
        simp only [decide_eq_true_eq] at htp
        have h0 : ¬((0 : Int) = tp) := by omega
        have h1 : (0 : Int) ≤ tp := by omega
        simp [bookInvariant, addBookDoc, h, h0, h1]
  · intro st success now sp ep tw hinv hwf hv
    have hinv0 : 0 ≤ st.book.pagesRead := by
      simp only [bookInvariant, Bool.and_eq_true, decide_eq_true_eq] at hinv
      exact hinv.1.1
    simp only [entryValid, Bool.and_eq_true, decide_eq_true_eq] at hv
    obtain ⟨⟨⟨⟨hv1, _⟩, _⟩, _⟩, hv3⟩ := hv
    have hpos : 0 < ep - sp + 1 := by omega
    cases hTot : st.book.totalPages with
    | none =>
        have heq := onSubmitEntry_committed_eq st.book.pagesRead sp ep none tw hpos
          (by intro t ht; cases ht)
        unfold runSubmitEntry
        rw [hTot, heq]
        cases success with
        | false => exact hinv
        | true =>
            have hsu : statusUpdate (st.book.pagesRead + (ep - sp + 1)) none =
                some BookStatus.reading := by
              simp only [statusUpdate, if_pos (by omega : (0:Int) < st.book.pagesRead + (ep - sp + 1))]
            simp only [commitEntryBatch, applyEntryBatch, if_true,
              finalPagesReadForBook, hsu, Option.getD_some]
            simp only [bookInvariant, hTot, Bool.and_eq_true, decide_eq_true_eq]
            exact ⟨⟨by omega, trivial⟩, by simp⟩
    | some tp =>
        rw [hTot] at hwf
        simp only [totalPagesWF, decide_eq_true_eq] at hwf
        by_cases hg : tp < st.book.pagesRead + (ep - sp + 1) ∧ st.book.pagesRead < tp
        · have heq := onSubmitEntry_wouldExceed_eq st.book.pagesRead sp ep tp tw hpos
            (by omega) hg.1 hg.2
          unfold runSubmitEntry
          rw [hTot, heq]
          exact hinv
        · have hng : ∀ t, (some tp : Option Int) = some t →
              ¬(t ≠ 0 ∧ t < st.book.pagesRead + (ep - sp + 1) ∧ st.book.pagesRead < t) := by
            intro t ht
            injection ht with ht
            subst ht
            intro ⟨_, ha, hb⟩
            exact hg ⟨ha, hb⟩
          have heq := onSubmitEntry_committed_eq st.book.pagesRead sp ep (some tp) tw hpos hng
          unfold runSubmitEntry
          rw [hTot, heq]
          cases success with
          | false => exact hinv
          | true =>
              have h0 : tp ≠ 0 := by omega
              have hF : finalPagesReadForBook (st.book.pagesRead + (ep - sp + 1)) (some tp) =
                  min (st.book.pagesRead + (ep - sp + 1)) tp := by
                simp [finalPagesReadForBook, h0]
              rcases le_total (st.book.pagesRead + (ep - sp + 1)) tp with hc | hc
              · rw [min_eq_left hc] at hF
                by_cases hfin : tp ≤ st.book.pagesRead + (ep - sp + 1)
                · have hsu : statusUpdate (st.book.pagesRead + (ep - sp + 1)) (some tp) =
                      some BookStatus.finished := by
                    simp [statusUpdate, h0, hfin]
                  simp only [commitEntryBatch, applyEntryBatch, if_true, hF, hsu,
                    Option.getD_some]
                  simp only [bookInvariant, hTot, Bool.and_eq_true, Bool.or_eq_true,
                    decide_eq_true_eq]
                  exact ⟨⟨by omega, by omega, Or.inr rfl⟩, Or.inl (Or.inr rfl)⟩
                · have hsu : statusUpdate (st.book.pagesRead + (ep - sp + 1)) (some tp) =
                      some BookStatus.reading := by
                    have hngoal : ¬(tp ≠ 0 ∧ tp ≤ st.book.pagesRead + (ep - sp + 1)) := by
                      intro ⟨_, hx⟩
                      exact hfin hx
                    simp [statusUpdate, hngoal]
                    omega
                  simp only [commitEntryBatch, applyEntryBatch, if_true, hF, hsu,
                    Option.getD_some]
                  simp only [bookInvariant, hTot, Bool.and_eq_true, Bool.or_eq_true,
                    decide_eq_true_eq]
                  have hne : ¬(st.book.pagesRead + (ep - sp + 1) = tp) := by omega
                  exact ⟨⟨by omega, by omega, Or.inl (by simp [hne])⟩, Or.inr rfl⟩
              · rw [min_eq_right hc] at hF
                have hsu : statusUpdate tp (some tp) = some BookStatus.finished := by
                  simp [statusUpdate, h0]
                simp only [commitEntryBatch, applyEntryBatch, if_true, hF, hsu,
                  Option.getD_some]
                simp only [bookInvariant, hTot, Bool.and_eq_true, Bool.or_eq_true,
                  decide_eq_true_eq]
                exact ⟨⟨by omega, by omega, Or.inr rfl⟩, Or.inl (Or.inr rfl)⟩

/-- Witness for C4 amended: a concrete valid add-form, and a concrete
session commit on an invariant-satisfying store. -/
theorem C4_amended_invariant_preservation_witness :
    let f : BookFormData :=
      { title := "Dune", author := "FH", category := "Sci-Fi"
        status := BookStatus.wantToRead, totalPages := some 100
        coverImage := none, coverUrl := "", isbn := "", description := "" }
    let st : Store :=
      { entries := []
        book := { title := "Dune", author := "FH", category := "Sci-Fi"
                  status := BookStatus.reading, totalPages := some 100
                  coverUrl := "https://example.com/c.png", isbn := "", description := ""
                  pagesRead := 40, updatedAt := 0 } }
    (validBookForm f = true ∧ bookInvariant (addBookDoc 0 f) = true) ∧
    (bookInvariant st.book = true ∧ totalPagesWF st.book.totalPages = true ∧
      entryValid st.book.totalPages 41 60 = true ∧
      bookInvariant (runSubmitEntry st true 2 41 60 "").book = true) := by
  exact ⟨⟨by decide, C4_amended_invariant_preservation.1 0 _ (by decide)⟩,
    ⟨by decide, by decide, by decide,
      C4_amended_invariant_preservation.2 _ true 2 41 60 "" (by decide) (by decide) (by decide)⟩⟩

/-- C8: when no cover file and no cover URL is supplied, both the create
flow and the edit flow persist the deterministic title-seeded placeholder
(the edit flow falls back to the book id only when the title is empty,
which validation rules out), so the persisted `coverUrl` is never empty;
resolving twice from the same title yields the same URL. -/
theorem C8_cover_fallback :
    (∀ now f, f.coverImage = none → f.coverUrl = "" →
      (addBookDoc now f).coverUrl = placeholderCoverUrl f.title ∧
      (addBookDoc now f).coverUrl ≠ "") ∧
    (∀ bookCoverUrl bookId f, f.coverImage = none → f.coverUrl = "" → f.title ≠ "" →
      editBookCoverUrl bookCoverUrl bookId f = placeholderCoverUrl f.title ∧
      editBookCoverUrl bookCoverUrl bookId f ≠ "") ∧
    (∀ t1 t2 : String, t1 = t2 → placeholderCoverUrl t1 = placeholderCoverUrl t2) := by
  refine ⟨?_, ?_, ?_⟩
  · intro now f hfile hurl
    have h1 : (addBookDoc now f).coverUrl = placeholderCoverUrl f.title := by
      simp [addBookDoc, hfile, hurl]
    exact ⟨h1, h1 ▸ placeholderCoverUrl_ne_empty f.title⟩
  · intro bookCoverUrl bookId f hfile hurl htitle
    have h1 : editBookCoverUrl bookCoverUrl bookId f = placeholderCoverUrl f.title := by
      simp [editBookCoverUrl, hfile, hurl, htitle]
    exact ⟨h1, h1 ▸ placeholderCoverUrl_ne_empty f.title⟩
  · intro t1 t2 h
    rw [h]

/-- Witness for C8 with title `"Dune"` on both flows. -/
theorem C8_cover_fallback_witness :
    let f : BookFormData :=
      { title := "Dune", author := "FH", category := "Sci-Fi"
        status := BookStatus.wantToRead, totalPages := none
        coverImage := none, coverUrl := "", isbn := "", description := "" }
    ((addBookDoc 0 f).coverUrl = placeholderCoverUrl "Dune" ∧
      (addBookDoc 0 f).coverUrl ≠ "") ∧
    (editBookCoverUrl "" "b1" f = placeholderCoverUrl "Dune" ∧
      editBookCoverUrl "" "b1" f ≠ "") ∧
    placeholderCoverUrl "Dune" = placeholderCoverUrl "Dune" := by
  exact ⟨C8_cover_fallback.1 0 _ rfl rfl,
    C8_cover_fallback.2.1 "" "b1" _ rfl rfl (by decide),
    C8_cover_fallback.2.2 "Dune" "Dune" rfl⟩

/-- C9 counterexample: `"ftp://example.com/cover.png"` is a well-formed
URL that is not http/https, yet it passes the add dialog's zod validation
and is persisted verbatim as the book's cover — the claim that only
http/https URLs are accepted fails on the code. -/
theorem C9_counterexample :
    let f : BookFormData :=
      { title := "Dune", author := "FH", category := "Sci-Fi"
        status := BookStatus.wantToRead, totalPages := none
        coverImage := none, coverUrl := "ftp://example.com/cover.png"
        isbn := "", description := "" }
    validBookForm f = true ∧
    isValidHttpUrl "ftp://example.com/cover.png" = false ∧
    (addBookDoc 0 f).coverUrl = "ftp://example.com/cover.png" := by
  decide

/-- C9 amended: a directly supplied cover URL passes form validation
exactly when it parses as a well-formed URL of any scheme (so malformed
strings are rejected back to the caller as a validation error), but
http/https is not required: the add flow persists any accepted non-empty
URL verbatim, and the edit flow silently ignores a parseable non-http(s)
URL at submit time, resolving the cover as if none had been supplied. -/
theorem C9_amended_url_validation :
    (∀ u : String, u ≠ "" → (coverUrlSchemaAccepts u = true ↔ canParseURL u = true)) ∧
    (∀ now f, f.coverImage = none → f.coverUrl ≠ "" →
      (addBookDoc now f).coverUrl = f.coverUrl) ∧
    (∀ bookCoverUrl bookId f, f.coverImage = none → f.coverUrl ≠ "" →
      isValidHttpUrl f.coverUrl = false →
      editBookCoverUrl bookCoverUrl bookId f =
        (let initial :=
          if !(bookCoverUrl == "") && isValidHttpUrl bookCoverUrl then bookCoverUrl else ""
         if initial == "" then
           (if !(f.title == "") then placeholderCoverUrl f.title
            else "https://picsum.photos/seed/" ++
              (if bookId == "" then "default-book-edit" else bookId) ++ "/300/450")
         else initial)) := by
  refine ⟨?_, ?_, ?_⟩
  · intro u hu
    simp [coverUrlSchemaAccepts, hu]
  · intro now f hfile hurl
    simp [addBookDoc, hfile, hurl]
  · intro bookCoverUrl bookId f hfile hurl hhttp
    simp [editBookCoverUrl, hfile, hurl, hhttp]

/-- Witness for C9 amended at the ftp URL of the counterexample's shape. -/
theorem C9_amended_url_validation_witness :
    let f : BookFormData :=
      { title := "Dune", author := "FH", category := "Sci-Fi"
        status := BookStatus.wantToRead, totalPages := none
        coverImage := none, coverUrl := "ftp://example.com/a.png"
        isbn := "", description := "" }
    (coverUrlSchemaAccepts "ftp://example.com/a.png" = true ↔
      canParseURL "ftp://example.com/a.png" = true) ∧
    (addBookDoc 0 f).coverUrl = "ftp://example.com/a.png" ∧
    editBookCoverUrl "" "b1" f =
      (let initial :=
        if !(("" : String) == "") && isValidHttpUrl "" then "" else ""
       if initial == "" then
         (if !(f.title == "") then placeholderCoverUrl f.title
          else "https://picsum.photos/seed/" ++
            (if ("b1" : String) == "" then "default-book-edit" else "b1") ++ "/300/450")
       else initial) := by
  exact ⟨C9_amended_url_validation.1 "ftp://example.com/a.png" (by decide),
    C9_amended_url_validation.2.1 0 _ rfl (by decide),
    C9_amended_url_validation.2.2 "" "b1" _ rfl (by decide) (by decide)⟩

/-- C10: every book-add submission that passes form validation is
persisted with `pagesRead = 0` while carrying the user-selected status
verbatim — `Finished` included. -/
theorem C10_add_pagesRead_zero (now : Nat) (f : BookFormData)
    (_hf : validBookForm f = true) :
    (addBookDoc now f).pagesRead = 0 ∧ (addBookDoc now f).status = f.status :=
  ⟨rfl, rfl⟩

/-- Witness for C10 with selected status `Finished`. -/
theorem C10_add_pagesRead_zero_witness :
    let f : BookFormData :=
      { title := "Dune", author := "FH", category := "Sci-Fi"
        status := BookStatus.finished, totalPages := some 100
        coverImage := none, coverUrl := "", isbn := "", description := "" }
    validBookForm f = true ∧
    (addBookDoc 0 f).pagesRead = 0 ∧ (addBookDoc 0 f).status = BookStatus.finished := by
  exact ⟨by decide, C10_add_pagesRead_zero 0 _ (by decide)⟩

end BookBound
